import Mathlib

/-!
Shallow embedding of `src/Alg_disjoint.py` (function `RAP_disjoint`), the
algorithm for quadratic resource allocation problems with structured disjoint
interval bound constraints.  Real scalars are modelled by `ℚ`; the Python float
special values `inf`, `-inf`, `nan` that the source manipulates (`math.inf`,
`-math.inf`, and products `0 * inf`) are modelled by the four-case type `XQ`
with IEEE comparison semantics.  Python exceptions (ValueError from
`itertools.combinations_with_replacement` with a negative count, TypeError from
subscripting `None`, ZeroDivisionError, IndexError) are modelled as values of
`PyErr` through `Except`.  The `heapq` binary heaps hold triples that are
pairwise distinct, so their observable pop/peek behaviour coincides with a list
kept sorted in the lexicographic order on (breakpoint, index, generation);
they are modelled that way.
-/

namespace RAPD

/-- Python exceptions and defensive failure modes of the embedding. -/
inductive PyErr where
  | valueErr   -- ValueError: combinations_with_replacement with r < 0 (m = 1)
  | typeErr    -- TypeError: subscripting current_best_partition = None
  | zeroDiv    -- ZeroDivisionError at the analytic multiplier step
  | idxErr     -- IndexError: peeking an empty heap
  | fuelOut    -- artificial: recursion fuel exhausted (never hit with the fuel supplied)
  deriving DecidableEq, Repr

/-- Python float values reachable in the source: a rational, ±inf, or nan. -/
inductive XQ where
  | nan
  | ninf
  | fin (q : ℚ)
  | inf
  deriving DecidableEq, Repr

/-- IEEE `<` on `XQ` (any comparison with nan is false). -/
def xlt : XQ → XQ → Bool
  | .nan, _ => false
  | _, .nan => false
  | .ninf, .ninf => false
  | .ninf, _ => true
  | _, .ninf => false
  | .fin a, .fin b => decide (a < b)
  | .fin _, .inf => true
  | .inf, _ => false

/-- IEEE `x < r` for a rational right operand. -/
def xltQ : XQ → ℚ → Bool
  | .nan, _ => false
  | .ninf, _ => true
  | .fin a, r => decide (a < r)
  | .inf, _ => false

/-- IEEE `r < x` for a rational left operand. -/
def qltX (r : ℚ) : XQ → Bool
  | .nan => false
  | .ninf => false
  | .fin a => decide (r < a)
  | .inf => true

/-- IEEE `x == r` for a rational right operand. -/
def xeqQ : XQ → ℚ → Bool
  | .fin a, r => decide (a = r)
  | _, _ => false

/-- IEEE `x > r` for a rational right operand. -/
def xgtQ : XQ → ℚ → Bool
  | .nan, _ => false
  | .ninf, _ => false
  | .fin a, r => decide (r < a)
  | .inf, _ => true

/-- Python `min(a, b)`: returns `b` when `b < a`, else `a`. -/
def xmin (a b : XQ) : XQ := if xlt b a then b else a

/-- Line 152 of the source: `Bounded + numFree * Candidate_BP - Free`,
with Python float semantics for an infinite candidate (`0 * inf = nan`). -/
def xresource (B F : ℚ) (nf : ℤ) : XQ → XQ
  | .fin c => .fin (B + nf * c - F)
  | .inf => if 0 < nf then .inf else if nf = 0 then .nan else .ninf
  | .ninf => if 0 < nf then .ninf else if nf = 0 then .nan else .inf
  | .nan => .nan

/-- Lines 156/160: `HELP_var_value_Bound + HELP_var_num_free * math.pow(Opt_mult, 2)`. -/
def objOf (value : ℚ) (nf : ℤ) : XQ → XQ
  | .fin q => .fin (value + nf * q ^ 2)
  | .inf => if 0 < nf then .inf else if nf = 0 then .nan else .ninf
  | .ninf => if 0 < nf then .inf else if nf = 0 then .nan else .ninf
  | .nan => .nan

/-- A `heapq` entry `[breakpoint, variable index, generation tag]`. -/
abbrev HeapE := ℚ × ℕ × ℕ

/-- Lexicographic order on heap entries, exactly Python's list comparison
`[bp, i, gen] < [bp', i', gen']`. -/
def hLt (a b : HeapE) : Bool :=
  decide (a.1 < b.1) ||
    (decide (a.1 = b.1) &&
      (decide (a.2.1 < b.2.1) || (decide (a.2.1 = b.2.1) && decide (a.2.2 < b.2.2))))

/-- Python `heapq.heappush` on the sorted-list model: ordered insertion. -/
def hpush : List HeapE → HeapE → List HeapE
  | [], e => [e]
  | x :: xs, e => if hLt e x then e :: x :: xs else x :: hpush xs e

/-- Python `heapq.heapify` of the initial entry list: insert the entries one by one. -/
def mkHeap (bps : List ℚ) : List HeapE :=
  ((List.range bps.length).map (fun i => ((bps.getD i 0, i, 0) : HeapE))).foldl hpush []

/-- Python `range(a, b)` over integers. -/
def pyRange (a b : ℤ) : List ℤ := (List.range (b - a).toNat).map (fun k : ℕ => a + (k : ℤ))

/-- Python `range(a, b)` over naturals. -/
def pyRangeN (a b : ℕ) : List ℕ := (List.range b).drop a

/-- Python list assignment `l[i] = v` with negative-index wraparound
(`l[-1]` writes the last element).  Writes at `i ≥ len l` or `i < -len l`
would raise in Python and do not occur for inputs of the modelled shapes;
they are modelled as no-ops. -/
def pySet (l : List ℚ) (i : ℤ) (v : ℚ) : List ℚ :=
  if 0 ≤ i then l.set i.toNat v else l.set (i + l.length).toNat v

/-- One level of `combinations_with_replacement`: prefix each element onto the
tuples drawn (with replacement) from the suffix starting at that element. -/
def cwrCons (f : List ℤ → List (List ℤ)) : List ℤ → List (List ℤ)
  | [] => []
  | x :: xs => (f (x :: xs)).map (x :: ·) ++ cwrCons f xs

/-- Python `itertools.combinations_with_replacement` over a list, in the same
lexicographic emission order. -/
def cwr : ℕ → List ℤ → List (List ℤ)
  | 0, _ => [[]]
  | k + 1, l => cwrCons (cwr k) l

/-- The five-vector input of `RAP_disjoint` plus the resource value. -/
structure Inst where
  R : ℚ
  b : List ℚ
  lower_fixed : List ℚ
  upper_fixed : List ℚ
  lower_var : List ℚ
  upper_var : List ℚ
  deriving DecidableEq, Repr

/-- Dimension `num_var` (line 49). -/
def Inst.n (P : Inst) : ℕ := P.b.length

/-- Dimension `num_intervals` (line 50). -/
def Inst.m (P : Inst) : ℕ := P.lower_fixed.length + 1

/-- The mutable state of one partition-trunk iteration (lines 68–106). -/
structure SweepSt where
  lower_bounds : List ℚ
  upper_bounds : List ℚ
  lower_breakpoints : List ℚ
  upper_breakpoints : List ℚ
  varBounded : ℚ        -- HELP_var_Bounded
  varFree : ℚ           -- HELP_var_Free
  numFree : ℤ           -- HELP_var_num_free
  valueBound : ℚ        -- HELP_var_value_Bound
  heapL : List HeapE    -- heap_lower_BPs
  heapU : List HeapE    -- heap_upper_BPs
  numL : ℤ              -- HELP_num_lower_heap
  numU : ℤ              -- HELP_num_upper_heap
  feasL : ℚ             -- HELP_feasible_check_lower
  feasU : ℚ             -- HELP_feasible_check_upper
  optMult : XQ          -- Opt_mult
  objValue : XQ         -- Obj_value
  deriving DecidableEq, Repr

/-- The best-candidate tracker scalars (lines 56–58), per trunk:
best objective, best multiplier, whether this trunk updated the record,
and the cursor position of the most recent update. -/
structure TrackSt where
  bestObj : XQ
  bestMult : XQ
  upd : Bool
  lastUpd : ℤ
  deriving DecidableEq, Repr

/-- Result of one trunk's cursor sweep: final tracker scalars and the final
value of the in-place mutated cursor `partition_full[-1]`. -/
structure TrunkRes where
  tk : TrackSt
  cEnd : ℤ
  deriving DecidableEq, Repr

/-- Lines 180–184: the best record is replaced iff the new objective is
strictly below the incumbent (IEEE `<`, so an untouched `inf` incumbent is
always beaten and a nan objective never wins). -/
def trackBest (cursor : ℤ) (obj mult : XQ) (tk : TrackSt) : TrackSt :=
  if xlt obj tk.bestObj then ⟨obj, mult, true, cursor⟩ else tk

/-- Candidate-breakpoint selection with lazy deletion (lines 117–148).
`strict` distinguishes the lower-heap validity bound `index < cursor`
(line 125) from the upper-heap bound `index ≤ cursor` (line 141). -/
def findCand (strict : Bool) (partBound cursor : ℤ) :
    List HeapE → ℤ → Except PyErr (XQ × List HeapE × ℤ)
  | [], num => if num ≤ 0 then .ok (.inf, [], num) else .error .idxErr
  | e :: rest, num =>
    if num ≤ 0 then .ok (.inf, e :: rest, num)
    else if partBound < (e.2.1 : ℤ) ∧
        (if strict then ((e.2.1 : ℤ) < cursor) else ((e.2.1 : ℤ) ≤ cursor)) ∧
        e.2.2 = 0 then
      findCand strict partBound cursor rest (num - 1)
    else
      .ok (.fin e.1, e :: rest, num)

/-- The breakpoint scan (lines 115–178): repeatedly select the least valid
candidate breakpoint, stop when the implied resource meets or overshoots `R`,
otherwise move the owning variable one regime up and continue. -/
def sweepLoop (P : Inst) (partBound cursor : ℤ) : ℕ → SweepSt → Except PyErr SweepSt
  | 0, _ => .error .fuelOut
  | fuel + 1, st =>
    match findCand true partBound cursor st.heapL st.numL with
    | .error e => .error e
    | .ok (candL, hL, nL) =>
      match findCand false partBound cursor st.heapU st.numU with
      | .error e => .error e
      | .ok (candU, hU, nU) =>
        let st := { st with heapL := hL, numL := nL, heapU := hU, numU := nU }
        let cand := xmin candL candU
        let resource := xresource st.varBounded st.varFree st.numFree cand
        if xeqQ resource P.R then
          .ok { st with optMult := cand, objValue := objOf st.valueBound st.numFree cand }
        else if xgtQ resource P.R then
          if (st.numFree : ℤ) = 0 then .error .zeroDiv
          else
            let mu : ℚ := (P.R - st.varBounded + st.varFree) / (st.numFree : ℚ)
            .ok { st with optMult := .fin mu,
                          objValue := objOf st.valueBound st.numFree (.fin mu) }
        else
          if xlt candL candU then
            match st.heapL with
            | [] => .error .idxErr
            | e :: rest =>
              let i := e.2.1
              sweepLoop P partBound cursor fuel
                { st with
                  varBounded := st.varBounded - st.lower_bounds.getD i 0,
                  varFree := st.varFree + P.b.getD i 0,
                  numFree := st.numFree + 1,
                  valueBound :=
                    st.valueBound - (st.lower_bounds.getD i 0 + P.b.getD i 0) ^ 2,
                  heapL := rest, numL := st.numL - 1 }
          else
            match st.heapU with
            | [] => .error .idxErr
            | e :: rest =>
              let i := e.2.1
              sweepLoop P partBound cursor fuel
                { st with
                  varBounded := st.varBounded + st.upper_bounds.getD i 0,
                  varFree := st.varFree - P.b.getD i 0,
                  numFree := st.numFree - 1,
                  valueBound :=
                    st.valueBound + (st.upper_bounds.getD i 0 + P.b.getD i 0) ^ 2,
                  heapU := rest, numU := st.numU - 1 }

/-- The new lower bound a variable receives when the cursor passes it
(lines 215–218): `lower_var[v]` when `len(lower_fixed) == 1`, else
`lower_fixed[-2]`. -/
def segLB (P : Inst) (v : ℕ) : ℚ :=
  if P.lower_fixed.length = 1 then P.lower_var.getD v 0
  else P.lower_fixed.getD (P.lower_fixed.length - 2) 0

/-- The new upper bound a variable receives when the cursor passes it
(line 219): `upper_fixed[-1]`. -/
def segUB (P : Inst) : ℚ := P.upper_fixed.getD (P.upper_fixed.length - 1) 0

/-- The sliding-window incremental update (lines 193–239) for the variable
`v = partition_full[-1]` after the increment: undo `v`'s contribution under
its old regime, move the feasibility sums from the old to the new bounds,
recompute `v`'s bounds/breakpoints, and re-add its contribution under the old
multiplier, pushing generation-1 heap entries. -/
def cursorUpdate (P : Inst) (st : SweepSt) (v : ℕ) : SweepSt :=
  let lbpv := st.lower_breakpoints.getD v 0
  let ubpv := st.upper_breakpoints.getD v 0
  let bv := P.b.getD v 0
  let lbv := st.lower_bounds.getD v 0
  let ubv := st.upper_bounds.getD v 0
  -- branch conditions of the first update round (lines 194, 197)
  let c1 := xltQ st.optMult lbpv
  let cM := qltX lbpv st.optMult && xltQ st.optMult ubpv
  -- new bounds and breakpoints (lines 209–219)
  let newLB := segLB P v
  let newUB := segUB P
  let nlbp := newLB + bv
  let nubp := newUB + bv
  -- branch conditions of the second update round (lines 225, 232)
  let d1 := xltQ st.optMult nlbp
  let dM := qltX nlbp st.optMult && xltQ st.optMult nubp
  -- each field is the source's value after both rounds (undo old, redo new)
  { lower_bounds := st.lower_bounds.set v newLB
    upper_bounds := st.upper_bounds.set v newUB
    lower_breakpoints := st.lower_breakpoints.set v nlbp
    upper_breakpoints := st.upper_breakpoints.set v nubp
    varBounded :=
      (if c1 then st.varBounded - lbv
       else if cM then st.varBounded else st.varBounded - ubv) +
      (if d1 then newLB else if dM then 0 else newUB)
    varFree := (if cM then st.varFree - bv else st.varFree) + (if dM then bv else 0)
    numFree := (if cM then st.numFree - 1 else st.numFree) + (if dM then 1 else 0)
    valueBound :=
      (if c1 then st.valueBound - (lbv + bv) ^ 2
       else if cM then st.valueBound else st.valueBound - (ubv + bv) ^ 2) +
      (if d1 then nlbp ^ 2 else if dM then 0 else nubp ^ 2)
    heapL := if d1 then hpush st.heapL (nlbp, v, 1) else st.heapL
    numL := if d1 then st.numL + 1 else st.numL
    heapU := if d1 || dM then hpush st.heapU (nubp, v, 1) else st.heapU
    numU := if d1 || dM then st.numU + 1 else st.numU
    feasL := st.feasL - lbv + newLB
    feasU := st.feasU - ubv + newUB
    optMult := st.optMult
    objValue := st.objValue }

/-- One window evaluation (lines 110–184): the two O(1) feasibility checks,
then the breakpoint scan and the best-record comparison.  `inl` is the
`break` of line 113 (trunk finished), `inr` carries the state into the
cursor advance. -/
def windowEval (P : Inst) (partBound cursor : ℤ) (st : SweepSt) (tk : TrackSt) :
    Except PyErr (TrunkRes ⊕ (SweepSt × TrackSt)) :=
  if P.R < st.feasL then
    .ok (.inr ({ st with optMult := .ninf }, tk))
  else if st.feasU < P.R then
    .ok (.inl ⟨tk, cursor⟩)
  else
    match sweepLoop P partBound cursor (st.heapL.length + st.heapU.length + 1) st with
    | .error e => .error e
    | .ok st' => .ok (.inr (st', trackBest cursor st'.objValue st'.optMult tk))

/-- The cursor loop of one trunk (lines 109–239): regime-check the window,
then slide `partition_full[-1]` one step and update incrementally.  The fuel
only bounds the loop length; `n + 2` steps always suffice. -/
def cursorLoop (P : Inst) (partBound : ℤ) :
    ℕ → ℤ → SweepSt → TrackSt → Except PyErr TrunkRes
  | 0, cursor, _, tk =>
    if cursor < (P.n : ℤ) then .error .fuelOut else .ok ⟨tk, cursor⟩
  | fuel + 1, cursor, st, tk =>
    if cursor < (P.n : ℤ) then
      match windowEval P partBound cursor st tk with
      | .error e => .error e
      | .ok (.inl r) => .ok r
      | .ok (.inr (st', tk')) =>
        let v := cursor + 1
        if (P.n : ℤ) ≤ v then .ok ⟨tk', v⟩
        else cursorLoop P partBound fuel v (cursorUpdate P st' v.toNat) tk'
    else .ok ⟨tk, cursor⟩

/-- The initial lower-bound array of a trunk (lines 69–76), built at the seed
cursor position `partition_full[-1] = partition_full[-2]`. -/
def initLower (P : Inst) (pf : List ℤ) : List ℚ :=
  let a := List.replicate P.n (0 : ℚ)
  let a := (pyRange 0 (pf.getD 0 0 + 1)).foldl
    (fun a i => pySet a i (P.lower_var.getD i.toNat 0)) a
  let a := (pyRangeN 1 (P.m - 2)).foldl
    (fun a j =>
      (pyRange (pf.getD (j - 1) 0 + 1) (pf.getD j 0 + 1)).foldl
        (fun a i => pySet a i (P.lower_fixed.getD (j - 1) 0)) a) a
  (pyRange (pf.getD (P.m - 2) 0 + 1) P.n).foldl
    (fun a i => pySet a i (P.lower_fixed.getD (P.m - 2) 0)) a

/-- The initial upper-bound array of a trunk (lines 78–85). -/
def initUpper (P : Inst) (pf : List ℤ) : List ℚ :=
  let a := List.replicate P.n (0 : ℚ)
  let a := (pyRange 0 (pf.getD 0 0 + 1)).foldl
    (fun a i => pySet a i (P.upper_fixed.getD 0 0)) a
  let a := (pyRangeN 1 (P.m - 2)).foldl
    (fun a j =>
      (pyRange (pf.getD (j - 1) 0 + 1) (pf.getD j 0 + 1)).foldl
        (fun a i => pySet a i (P.upper_fixed.getD j 0)) a) a
  (pyRange (pf.getD (P.m - 2) 0 + 1) P.n).foldl
    (fun a i => pySet a i (P.upper_var.getD i.toNat 0)) a

/-- One iteration of the outer partition loop (lines 61–239): extend the trunk
with the seed cursor, build bounds, breakpoints, bookkeeping sums and heaps,
and run the cursor loop. -/
def runTrunk (P : Inst) (tk : TrackSt) (trunk : List ℤ) : Except PyErr TrunkRes :=
  let pf := trunk ++ [trunk.getLastD (-1)]
  let n := P.n
  let lower_bounds := initLower P pf
  let upper_bounds := initUpper P pf
  let lower_breakpoints :=
    (List.range n).map (fun i => lower_bounds.getD i 0 + P.b.getD i 0)
  let upper_breakpoints :=
    (List.range n).map (fun i => upper_bounds.getD i 0 + P.b.getD i 0)
  let st : SweepSt := {
    lower_bounds := lower_bounds
    upper_bounds := upper_bounds
    lower_breakpoints := lower_breakpoints
    upper_breakpoints := upper_breakpoints
    varBounded := lower_bounds.sum
    varFree := 0
    numFree := 0
    valueBound := (lower_breakpoints.map (fun q => q ^ 2)).sum
    heapL := mkHeap lower_breakpoints
    heapU := mkHeap upper_breakpoints
    numL := n
    numU := n
    feasL := lower_bounds.sum
    feasU := upper_bounds.sum
    optMult := .nan
    objValue := .nan }
  let partBound : ℤ := if pf.length = 1 then -1 else pf.getD (pf.length - 2) 0
  cursorLoop P partBound (n + 2) (pf.getLastD (-1)) st tk

/-- The global best record.  `part` models `current_best_partition`, which in
the source ALIASES the trunk's mutable `partition_full` list: at read time
(line 244) its last element is the final cursor value of the recording trunk,
not the cursor at which the record was made.  `ghost` is the deep-copied
snapshot the record would hold without the aliasing; the source does not
compute it. -/
structure GBest where
  obj : XQ
  mult : XQ
  part : Option (List ℤ)
  ghost : Option (List ℤ)
  deriving DecidableEq, Repr

/-- The outer loop over all partition trunks (line 61). -/
def trunkFold (P : Inst) : List (List ℤ) → GBest → Except PyErr GBest
  | [], g => .ok g
  | t :: ts, g =>
    match runTrunk P ⟨g.obj, g.mult, false, 0⟩ t with
    | .error e => .error e
    | .ok r =>
      let g' : GBest :=
        if r.tk.upd then
          ⟨r.tk.bestObj, r.tk.bestMult, some (t ++ [r.cEnd]), some (t ++ [r.tk.lastUpd])⟩
        else
          { g with obj := r.tk.bestObj, mult := r.tk.bestMult }
      trunkFold P ts g'

/-- The reconstructor's lower-bound array (lines 243–250).  Unlike the sweep's
(lines 69–76), the ranges have no `+1`, and a `-1` boundary makes `range`
start at `-1`, which writes the LAST list cell via Python's negative
indexing. -/
def reconLower (P : Inst) (cbp : List ℤ) : List ℚ :=
  let a := List.replicate P.n (0 : ℚ)
  let a := (pyRange 0 (cbp.getD 0 0)).foldl
    (fun a i => pySet a i (P.lower_var.getD i.toNat 0)) a
  let a := (pyRangeN 1 (P.m - 2)).foldl
    (fun a j =>
      (pyRange (cbp.getD (j - 1) 0) (cbp.getD j 0)).foldl
        (fun a i => pySet a i (P.lower_fixed.getD (j - 1) 0)) a) a
  (pyRange (cbp.getD (P.m - 2) 0) P.n).foldl
    (fun a i => pySet a i (P.lower_fixed.getD (P.m - 2) 0)) a

/-- The reconstructor's upper-bound array (lines 252–259). -/
def reconUpper (P : Inst) (cbp : List ℤ) : List ℚ :=
  let a := List.replicate P.n (0 : ℚ)
  let a := (pyRange 0 (cbp.getD 0 0)).foldl
    (fun a i => pySet a i (P.upper_fixed.getD 0 0)) a
  let a := (pyRangeN 1 (P.m - 2)).foldl
    (fun a j =>
      (pyRange (cbp.getD (j - 1) 0) (cbp.getD j 0)).foldl
        (fun a i => pySet a i (P.upper_fixed.getD j 0)) a) a
  (pyRange (cbp.getD (P.m - 2) 0) P.n).foldl
    (fun a i => pySet a i (P.upper_var.getD i.toNat 0)) a

/-- Python `min(u, max(l, x))` of line 265, for a float `x` that may be
non-finite: `max(l, x)` keeps `l` unless `x > l`, then `min(u, ·)`. -/
def clipPy (lo hi : ℚ) : XQ → ℚ
  | .fin q =>
    let y := if lo < q then q else lo
    if y < hi then y else hi
  | .inf => hi
  | .ninf => if lo < hi then lo else hi
  | .nan => if lo < hi then lo else hi

/-- The reconstructor (lines 242–266): rebuild bounds from the recorded best
partition and clip `Opt_mult - b[i]` into them.  Lines 262–263 recompute the
breakpoint arrays but never use them. -/
def reconstruct (P : Inst) (cbp : List ℤ) (mult : XQ) : List ℚ :=
  let lower_bounds := reconLower P cbp
  let upper_bounds := reconUpper P cbp
  (List.range P.n).map (fun i =>
    clipPy (lower_bounds.getD i 0) (upper_bounds.getD i 0)
      (match mult with
       | .fin q => .fin (q - P.b.getD i 0)
       | .inf => .inf
       | .ninf => .ninf
       | .nan => .nan))

/-- The trunk collection (line 53):
`combinations_with_replacement(range(-1, num_var), num_intervals - 2)`. -/
def listPartitions (P : Inst) : List (List ℤ) :=
  cwr (P.m - 2) (pyRange (-1) P.n)

/-- The full algorithm `RAP_disjoint` (lines 46–266).  `m = 1` (empty
`lower_fixed`) raises ValueError inside `combinations_with_replacement`
(negative tuple size); an instance whose search never records a best raises
TypeError when line 244 subscripts `None`. -/
def RAP_disjoint (R : ℚ) (b lower_fixed upper_fixed lower_var upper_var : List ℚ) :
    Except PyErr (List ℚ) :=
  let P : Inst := ⟨R, b, lower_fixed, upper_fixed, lower_var, upper_var⟩
  if P.lower_fixed.length = 0 then .error .valueErr
  else
    match trunkFold P (listPartitions P) ⟨.inf, .nan, none, none⟩ with
    | .error e => .error e
    | .ok g =>
      match g.part with
      | none => .error .typeErr
      | some cbp => .ok (reconstruct P cbp g.mult)

/-- Same pipeline, exposing the recorded best partition (alias semantics, as
the source reads it at line 244) next to the deep-copy snapshot of the
partition at the moment the best record was made. -/
def RAP_bestParts (R : ℚ) (b lower_fixed upper_fixed lower_var upper_var : List ℚ) :
    Except PyErr (Option (List ℤ) × Option (List ℤ)) :=
  let P : Inst := ⟨R, b, lower_fixed, upper_fixed, lower_var, upper_var⟩
  if P.lower_fixed.length = 0 then .error .valueErr
  else
    match trunkFold P (listPartitions P) ⟨.inf, .nan, none, none⟩ with
    | .error e => .error e
    | .ok g => .ok (g.part, g.ghost)

end RAPD

namespace RAPD

/-- Whether the modelled run returned a solution vector (rather than raising). -/
def okB : Except PyErr (List ℚ) → Bool
  | .ok _ => true
  | .error _ => false

/-- The objective value Σ (xᵢ + bᵢ)² of a solution vector. -/
def objective (b xs : List ℚ) : ℚ := (List.zipWith (fun x c => (x + c) ^ 2) xs b).sum

/-- The seed cursor of a trunk (lines 62–66): the trunk's last element,
`-1` for the empty trunk. -/
def seedOf (t : List ℤ) : ℤ := t.getLastD (-1)

/-- The lower-bound array the sweep maintains for trunk `t` after the cursor
has advanced `k` times past its seed: the seed assignment of lines 69–76,
then one in-place rewrite per passed variable (lines 215–218). -/
def lbArr (P : Inst) (t : List ℤ) : ℕ → List ℚ
  | 0 => initLower P (t ++ [seedOf t])
  | k + 1 => (lbArr P t k).set (seedOf t + k + 1).toNat (segLB P (seedOf t + k + 1).toNat)

/-- The upper-bound array the sweep maintains for trunk `t` after `k` cursor
advances (lines 78–85, then line 219 per passed variable). -/
def ubArr (P : Inst) (t : List ℤ) : ℕ → List ℚ
  | 0 => initUpper P (t ++ [seedOf t])
  | k + 1 => (ubArr P t k).set (seedOf t + k + 1).toNat (segUB P)

/-- The counterexample instance: n = 2, m = 2, R = 2, b = [2, 0], and every
variable constrained to [0, 1] ∪ [2, 3] (lower_var = [0,0], upper_fixed = [1],
lower_fixed = [2], upper_var = [3,3]).  The two intervals have equal length
and the shift vector is non-increasing, so the structural preconditions hold. -/
def Pce : Inst := ⟨2, [2, 0], [2], [1], [0, 0], [3, 3]⟩

/-- Membership in the interval union [0, 1] ∪ [2, 3] of the counterexample
instance (the same union for both variables). -/
def inUnionCE (x : ℚ) : Prop := (0 ≤ x ∧ x ≤ 1) ∨ (2 ≤ x ∧ x ≤ 3)

/-- The sweep state of the counterexample run at the moment the cursor of the
single trunk advances from 0 to 1 (taken from the traced execution). -/
def stC5 : SweepSt :=
  { lower_bounds := [0, 2], upper_bounds := [1, 3]
    lower_breakpoints := [2, 2], upper_breakpoints := [3, 3]
    varBounded := 2, varFree := 0, numFree := 0, valueBound := 8
    heapL := [(2, 0, 1), (2, 1, 0), (4, 0, 0)]
    heapU := [(3, 0, 1), (3, 1, 0), (5, 0, 0)]
    numL := 3, numU := 3, feasL := 2, feasU := 4
    optMult := .fin 2, objValue := .fin 8 }

deriving instance DecidableEq for Except

end RAPD

namespace RAPD

lemma ce_objective_lower_bound (x0 x1 : ℚ) (hs : x0 + x1 = 2) :
    8 ≤ objective [2, 0] [x0, x1] := by
  have hobj : objective [2, 0] [x0, x1] = (x0 + 2) ^ 2 + (x1 + 0) ^ 2 := by
    simp [objective]
  have hx1 : x1 = 2 - x0 := by linarith
  rw [hobj, hx1]
  nlinarith [sq_nonneg x0]

/-- C1: on the counterexample instance the code returns the vector [0, 1] with
objective 5, while the brute-force minimum over all feasible points (hence
over all interval-segment assignments with their restricted QP optima) is 8;
the returned objective does not match it. -/
theorem C1_objective_mismatch :
    RAP_disjoint 2 [2, 0] [2] [1] [0, 0] [3, 3] = .ok [0, 1] ∧
    objective [2, 0] [0, 1] = 5 ∧
    IsLeast {v : ℚ | ∃ x0 x1 : ℚ, inUnionCE x0 ∧ inUnionCE x1 ∧ x0 + x1 = 2 ∧
      v = objective [2, 0] [x0, x1]} 8 ∧
    (5 : ℚ) ≠ 8 := by
  refine ⟨by with_unfolding_all decide, by norm_num [objective],
    ⟨⟨0, 2, ?_, ?_, by norm_num, by norm_num [objective]⟩, ?_⟩, by norm_num⟩
  · exact Or.inl ⟨le_refl 0, by norm_num⟩
  · exact Or.inr ⟨by norm_num, by norm_num⟩
  · rintro v ⟨x0, x1, h0, h1, hs, rfl⟩
    exact ce_objective_lower_bound x0 x1 hs

/-- C2: on the feasible counterexample instance ((0, 2) is a feasible point),
the returned vector [0, 1] sums to 1 ≠ R = 2. -/
theorem C2_sum_mismatch :
    RAP_disjoint 2 [2, 0] [2] [1] [0, 0] [3, 3] = .ok [0, 1] ∧
    ([0, 1] : List ℚ).sum = 1 ∧ (1 : ℚ) ≠ 2 ∧
    inUnionCE 0 ∧ inUnionCE 2 ∧ (0 : ℚ) + 2 = 2 := by
  refine ⟨by with_unfolding_all decide, by norm_num, by norm_num,
    Or.inl ⟨le_refl 0, by norm_num⟩, Or.inr ⟨by norm_num, by norm_num⟩, by norm_num⟩

/-- C7: on the counterexample instance the recorded best partition (read
through the alias at line 244) is [2], while the partition at the moment the
best record was made was [1]; the snapshot was mutated afterwards. -/
theorem C7_alias_mutates :
    RAP_bestParts 2 [2, 0] [2] [1] [0, 0] [3, 3] = .ok (some [2], some [1]) ∧
    some ([2] : List ℤ) ≠ some [1] :=
  ⟨by with_unfolding_all decide, by decide⟩

/-- C9: with m = 1 (empty lower_fixed/upper_fixed) the code raises ValueError
inside combinations_with_replacement instead of returning the water-filling
solution. -/
theorem C9_m1_crash :
    RAP_disjoint 0 [3, 1] [] [] [-5, -5] [5, 5] = .error .valueErr := rfl

/-- C5 counterexample: at the traced cursor advance 0 → 1 of the
counterexample run, variable 1's recomputed bounds are (0, 1) =
(lower_var[1], upper_fixed[0]), not the claimed final-segment bounds
(lower_fixed[m-2], upper_var[1]) = (2, 3). -/
theorem C5_update_not_final_segment :
    (cursorUpdate Pce stC5 1).lower_bounds.getD 1 0 = 0 ∧
    (cursorUpdate Pce stC5 1).upper_bounds.getD 1 0 = 1 ∧
    Pce.lower_fixed.getD (Pce.m - 2) 0 = 2 ∧ Pce.upper_var.getD 1 0 = 3 ∧
    ¬((0 : ℚ) = 2 ∧ (1 : ℚ) = 3) :=
  ⟨by with_unfolding_all decide, by with_unfolding_all decide,
   by with_unfolding_all decide, by with_unfolding_all decide,
   by with_unfolding_all decide⟩

/-- C5 amended: the sliding-window update gives the passed variable the
bounds of segment m-2 (lower_var[v]/upper_fixed[0] when m = 2, else
lower_fixed[m-3]/upper_fixed[m-2]) and breakpoints bound + b[v]; the variable
leaves the final segment rather than entering it. -/
theorem C5_update_bounds (P : Inst) (st : SweepSt) (v : ℕ) :
    (cursorUpdate P st v).lower_bounds = st.lower_bounds.set v (segLB P v) ∧
    (cursorUpdate P st v).upper_bounds = st.upper_bounds.set v (segUB P) ∧
    (cursorUpdate P st v).lower_breakpoints =
      st.lower_breakpoints.set v (segLB P v + P.b.getD v 0) ∧
    (cursorUpdate P st v).upper_breakpoints =
      st.upper_breakpoints.set v (segUB P + P.b.getD v 0) ∧
    segLB P v = (if P.lower_fixed.length = 1 then P.lower_var.getD v 0
      else P.lower_fixed.getD (P.lower_fixed.length - 2) 0) ∧
    segUB P = P.upper_fixed.getD (P.upper_fixed.length - 1) 0 :=
  ⟨rfl, rfl, rfl, rfl, rfl, rfl⟩

/-- C6: the tracker replaces the incumbent iff the new objective is strictly
smaller, and a window flagged infeasible by the Σlower > R check (multiplier
set to the -inf sentinel) leaves the best record unchanged. -/
theorem C6_tracker_strict (P : Inst) (partBound cursor : ℤ) (st : SweepSt)
    (tk : TrackSt) (obj mult : XQ) :
    (P.R < st.feasL →
      windowEval P partBound cursor st tk =
        .ok (.inr ({ st with optMult := .ninf }, tk))) ∧
    (trackBest cursor obj mult tk ≠ tk → xlt obj tk.bestObj = true) ∧
    (xlt obj tk.bestObj = true →
      trackBest cursor obj mult tk = ⟨obj, mult, true, cursor⟩) := by
  refine ⟨fun h => ?_, fun h => ?_, fun h => ?_⟩
  · simp only [windowEval, if_pos h]
  · by_cases hx : xlt obj tk.bestObj = true
    · exact hx
    · exact absurd (by simp [trackBest, hx]) h
  · simp [trackBest, h]

theorem C6_tracker_strict_witness :
    windowEval Pce (-1) (-1) { stC5 with feasL := 3 } ⟨.inf, .nan, false, 0⟩ =
      .ok (.inr ({ { stC5 with feasL := 3 } with optMult := .ninf },
        (⟨.inf, .nan, false, 0⟩ : TrackSt))) ∧
    trackBest 0 (.fin 1) (.fin 2) ⟨.inf, .nan, false, 0⟩ = ⟨.fin 1, .fin 2, true, 0⟩ :=
  ⟨(C6_tracker_strict Pce (-1) (-1) { stC5 with feasL := 3 }
      ⟨.inf, .nan, false, 0⟩ (.fin 1) (.fin 2)).1 (by with_unfolding_all decide),
   (C6_tracker_strict Pce (-1) 0 { stC5 with feasL := 3 }
      ⟨.inf, .nan, false, 0⟩ (.fin 1) (.fin 2)).2.2 (by decide)⟩

/-- C10: the algorithm is a pure function of its five inputs (the seeded
global RNG plays no part in the embedding because the source never consults
it), and heap-entry comparison breaks breakpoint ties by ascending variable
index (then generation). -/
theorem C10_deterministic_tiebreak :
    (∀ (R : ℚ) (b lf uf lv uv : List ℚ) (R' : ℚ) (b' lf' uf' lv' uv' : List ℚ),
      R = R' → b = b' → lf = lf' → uf = uf' → lv = lv' → uv = uv' →
      RAP_disjoint R b lf uf lv uv = RAP_disjoint R' b' lf' uf' lv' uv') ∧
    (∀ (q : ℚ) (i g i' g' : ℕ),
      hLt (q, i, g) (q, i', g') = true ↔ i < i' ∨ (i = i' ∧ g < g')) := by
  constructor
  · intro R b lf uf lv uv R' b' lf' uf' lv' uv' h1 h2 h3 h4 h5 h6
    subst h1; subst h2; subst h3; subst h4; subst h5; subst h6; rfl
  · intro q i g i' g'
    simp [hLt]

theorem C10_deterministic_tiebreak_witness :
    RAP_disjoint 2 [2, 0] [2] [1] [0, 0] [3, 3] =
      RAP_disjoint 2 [2, 0] [2] [1] [0, 0] [3, 3] ∧
    (hLt (5, 1, 0) (5, 2, 0) = true ↔ 1 < 2 ∨ (1 = 2 ∧ 0 < 0)) :=
  ⟨C10_deterministic_tiebreak.1 2 [2, 0] [2] [1] [0, 0] [3, 3]
      2 [2, 0] [2] [1] [0, 0] [3, 3] rfl rfl rfl rfl rfl rfl,
   C10_deterministic_tiebreak.2 5 1 0 2 0⟩

end RAPD

namespace RAPD

lemma length_pySet (l : List ℚ) (i : ℤ) (v : ℚ) : (pySet l i v).length = l.length := by
  unfold pySet; split <;> simp

lemma length_foldl_pySet (rng : List ℤ) (vf : ℤ → ℚ) (l : List ℚ) :
    (rng.foldl (fun acc i => pySet acc i (vf i)) l).length = l.length := by
  induction rng generalizing l with
  | nil => rfl
  | cons x xs ih => simp [List.foldl_cons, ih, length_pySet]

end RAPD

namespace RAPD

end RAPD

namespace RAPD

lemma sum_set_q (l : List ℚ) (v : ℕ) (x : ℚ) (h : v < l.length) :
    (l.set v x).sum = l.sum - l.getD v 0 + x := by
  induction l generalizing v with
  | nil => simp at h
  | cons a as ih =>
    cases v with
    | zero => simp; ring
    | succ v =>
      have h' : v < as.length := by simpa using h
      simp only [List.set_cons_succ, List.sum_cons, List.getD_cons_succ, ih v h']
      ring

lemma mem_pyRange_ge {a b x : ℤ} (hx : x ∈ pyRange a b) : a ≤ x := by
  unfold pyRange at hx
  obtain ⟨k, _, rfl⟩ := List.mem_map.mp hx
  omega

lemma cwrCons_subset (f : List ℤ → List (List ℤ))
    (hf : ∀ l t, t ∈ f l → ∀ x ∈ t, x ∈ l) :
    ∀ (l t : List ℤ), t ∈ cwrCons f l → ∀ x ∈ t, x ∈ l
  | [], t, ht => by simp [cwrCons] at ht
  | y :: ys, t, ht => by
    intro x hx
    simp only [cwrCons, List.mem_append, List.mem_map] at ht
    rcases ht with ⟨t', ht', rfl⟩ | ht
    · rcases List.mem_cons.mp hx with rfl | hx'
      · exact List.mem_cons_self _ _
      · exact hf (y :: ys) t' ht' x hx'
    · exact List.mem_cons_of_mem _ (cwrCons_subset f hf ys t ht x hx)

lemma cwr_subset : ∀ (k : ℕ) (l t : List ℤ), t ∈ cwr k l → ∀ x ∈ t, x ∈ l
  | 0, l, t, ht => by
    simp only [cwr, List.mem_singleton] at ht
    subst ht
    intro x hx
    simp at hx
  | k + 1, l, t, ht => cwrCons_subset (cwr k) (cwr_subset k) l t ht

lemma getLastD_mem_cons : ∀ (ys : List ℤ) (y d : ℤ), (y :: ys).getLastD d ∈ y :: ys
  | [], y, d => by simp
  | z :: zs, y, d => by
    rw [List.getLastD_cons]
    exact List.mem_cons_of_mem _ (getLastD_mem_cons zs z y)

lemma seedOf_ge (P : Inst) (t : List ℤ) (ht : t ∈ listPartitions P) : -1 ≤ seedOf t := by
  unfold seedOf
  cases t with
  | nil => simp
  | cons y ys =>
    exact mem_pyRange_ge (cwr_subset _ _ _ ht _ (getLastD_mem_cons ys y (-1)))

lemma length_foldl_nested (js : List ℕ) (g : ℕ → ℤ → ℚ) (lo hi : ℕ → ℤ) (l : List ℚ) :
    (js.foldl (fun a j =>
      (pyRange (lo j) (hi j)).foldl (fun a i => pySet a i (g j i)) a) l).length = l.length := by
  induction js generalizing l with
  | nil => rfl
  | cons j js ih => simp [List.foldl_cons, ih, length_foldl_pySet]

lemma length_initLower (P : Inst) (pf : List ℤ) : (initLower P pf).length = P.n := by
  unfold initLower
  rw [length_foldl_pySet (pyRange (pf.getD (P.m - 2) 0 + 1) (P.n : ℤ))
      (fun _ => P.lower_fixed.getD (P.m - 2) 0)]
  rw [length_foldl_nested (pyRangeN 1 (P.m - 2)) (fun j _ => P.lower_fixed.getD (j - 1) 0)
      (fun j => pf.getD (j - 1) 0 + 1) (fun j => pf.getD j 0 + 1)]
  rw [length_foldl_pySet (pyRange 0 (pf.getD 0 0 + 1))
      (fun i => P.lower_var.getD i.toNat 0)]
  exact List.length_replicate _ _

lemma length_initUpper (P : Inst) (pf : List ℤ) : (initUpper P pf).length = P.n := by
  unfold initUpper
  rw [length_foldl_pySet (pyRange (pf.getD (P.m - 2) 0 + 1) (P.n : ℤ))
      (fun i => P.upper_var.getD i.toNat 0)]
  rw [length_foldl_nested (pyRangeN 1 (P.m - 2)) (fun j _ => P.upper_fixed.getD j 0)
      (fun j => pf.getD (j - 1) 0 + 1) (fun j => pf.getD j 0 + 1)]
  rw [length_foldl_pySet (pyRange 0 (pf.getD 0 0 + 1))
      (fun _ => P.upper_fixed.getD 0 0)]
  exact List.length_replicate _ _

lemma lbArr_length (P : Inst) (t : List ℤ) : ∀ k, (lbArr P t k).length = P.n
  | 0 => length_initLower P _
  | k + 1 => by rw [lbArr, List.length_set, lbArr_length P t k]

lemma ubArr_length (P : Inst) (t : List ℤ) : ∀ k, (ubArr P t k).length = P.n
  | 0 => length_initUpper P _
  | k + 1 => by rw [ubArr, List.length_set, ubArr_length P t k]

end RAPD

namespace RAPD

lemma cursorLoop_no_best (P : Inst) (t : List ℤ) (pb : ℤ)
    (hseed : -1 ≤ seedOf t)
    (H : ∀ k : ℕ, seedOf t + (k : ℤ) < (P.n : ℤ) →
      P.R < (lbArr P t k).sum ∨ (ubArr P t k).sum < P.R) :
    ∀ (fuel k : ℕ) (cursor : ℤ) (st : SweepSt) (tk : TrackSt),
      cursor = seedOf t + (k : ℤ) →
      (P.n : ℤ) ≤ seedOf t + (k : ℤ) + (fuel : ℤ) →
      st.lower_bounds = lbArr P t k →
      st.upper_bounds = ubArr P t k →
      st.feasL = (lbArr P t k).sum →
      st.feasU = (ubArr P t k).sum →
      ∃ c, cursorLoop P pb fuel cursor st tk = .ok ⟨tk, c⟩
  | 0, k, cursor, st, tk, hcur, hfuel, _, _, _, _ => by
    subst hcur
    refine ⟨seedOf t + (k : ℤ), ?_⟩
    simp only [cursorLoop]
    rw [if_neg (by push_cast at hfuel; omega)]
  | fuel + 1, k, cursor, st, tk, hcur, hfuel, hlb, hub, hfl, hfu => by
    subst hcur
    by_cases hc : seedOf t + (k : ℤ) < (P.n : ℤ)
    · by_cases hlow : P.R < (lbArr P t k).sum
      · -- infeasible-by-lower window: Opt_mult = -inf, then advance the cursor
        have hwe : windowEval P pb (seedOf t + (k : ℤ)) st tk =
            .ok (.inr ({ st with optMult := .ninf }, tk)) := by
          unfold windowEval
          rw [if_pos (by rw [hfl]; exact hlow)]
        by_cases hend : (P.n : ℤ) ≤ seedOf t + (k : ℤ) + 1
        · refine ⟨seedOf t + (k : ℤ) + 1, ?_⟩
          simp only [cursorLoop]
          rw [if_pos hc, hwe]
          simp only [hend, if_true]
        · have hv0 : (0 : ℤ) ≤ seedOf t + (k : ℤ) + 1 := by omega
          have hvn : seedOf t + (k : ℤ) + 1 < (P.n : ℤ) := by omega
          have hwlt : (seedOf t + (k : ℤ) + 1).toNat < (lbArr P t k).length := by
            rw [lbArr_length]; omega
          have hwltU : (seedOf t + (k : ℤ) + 1).toNat < (ubArr P t k).length := by
            rw [ubArr_length]; omega
          obtain ⟨c, hrec⟩ := cursorLoop_no_best P t pb hseed H fuel (k + 1)
            (seedOf t + (k : ℤ) + 1)
            (cursorUpdate P { st with optMult := .ninf } (seedOf t + (k : ℤ) + 1).toNat) tk
            (by push_cast; ring)
            (by push_cast at hfuel ⊢; omega)
            (by simp only [lbArr]; rw [← hlb]; rfl)
            (by simp only [ubArr]; rw [← hub]; rfl)
            (by
              simp only [lbArr]
              rw [sum_set_q _ _ _ hwlt, ← hfl, ← hlb]
              rfl)
            (by
              simp only [ubArr]
              rw [sum_set_q _ _ _ hwltU, ← hfu, ← hub]
              rfl)
          refine ⟨c, ?_⟩
          simp only [cursorLoop]
          rw [if_pos hc, hwe]
          simp only [hend, if_false]
          exact hrec
      · -- the upper feasibility check fails: break
        have hup : (ubArr P t k).sum < P.R := (H k hc).resolve_left hlow
        refine ⟨seedOf t + (k : ℤ), ?_⟩
        simp only [cursorLoop]
        rw [if_pos hc]
        have hwe : windowEval P pb (seedOf t + (k : ℤ)) st tk =
            .ok (.inl ⟨tk, seedOf t + (k : ℤ)⟩) := by
          unfold windowEval
          rw [if_neg (by rw [hfl]; exact hlow), if_pos (by rw [hfu]; exact hup)]
        rw [hwe]
    · refine ⟨seedOf t + (k : ℤ), ?_⟩
      simp only [cursorLoop]
      rw [if_neg hc]

lemma runTrunk_no_best (P : Inst) (t : List ℤ) (tk : TrackSt)
    (hseed : -1 ≤ seedOf t)
    (H : ∀ k : ℕ, seedOf t + (k : ℤ) < (P.n : ℤ) →
      P.R < (lbArr P t k).sum ∨ (ubArr P t k).sum < P.R) :
    ∃ c, runTrunk P tk t = .ok ⟨tk, c⟩ := by
  simp only [runTrunk]
  rw [List.getLastD_concat]
  exact cursorLoop_no_best P t _ hseed H (P.n + 2) 0 _ _ tk (by simp [seedOf])
    (by push_cast; omega) rfl rfl rfl rfl

lemma trunkFold_no_best (P : Inst) :
    ∀ (ts : List (List ℤ)) (g : GBest),
      (∀ t ∈ ts, -1 ≤ seedOf t ∧ ∀ k : ℕ, seedOf t + (k : ℤ) < (P.n : ℤ) →
        P.R < (lbArr P t k).sum ∨ (ubArr P t k).sum < P.R) →
      trunkFold P ts g = .ok g
  | [], _, _ => rfl
  | t :: ts, g, H => by
    obtain ⟨hs, ht⟩ := H t (List.mem_cons_self t ts)
    obtain ⟨c, hc⟩ := runTrunk_no_best P t ⟨g.obj, g.mult, false, 0⟩ hs ht
    have hrest := trunkFold_no_best P ts g
      (fun t' ht' => H t' (List.mem_cons_of_mem _ ht'))
    simpa [trunkFold, hc] using hrest

/-- C3: when R is below the minimum possible Σ lower bounds over every
partition and window, or above the maximum possible Σ upper bounds, the run
never returns a solution vector: no window ever updates the best record, so
the reconstruction step fails on the `None` best partition (TypeError), a
distinct outcome rather than a stale or degenerate vector (with m = 1 the
ValueError is raised even earlier). -/
theorem C3_infeasible_error (R : ℚ) (b lf uf lv uv : List ℚ)
    (H : (∀ t ∈ listPartitions ⟨R, b, lf, uf, lv, uv⟩, ∀ k : ℕ,
            seedOf t + (k : ℤ) < ((⟨R, b, lf, uf, lv, uv⟩ : Inst).n : ℤ) →
            R < (lbArr ⟨R, b, lf, uf, lv, uv⟩ t k).sum) ∨
         (∀ t ∈ listPartitions ⟨R, b, lf, uf, lv, uv⟩, ∀ k : ℕ,
            seedOf t + (k : ℤ) < ((⟨R, b, lf, uf, lv, uv⟩ : Inst).n : ℤ) →
            (ubArr ⟨R, b, lf, uf, lv, uv⟩ t k).sum < R)) :
    okB (RAP_disjoint R b lf uf lv uv) = false := by
  unfold RAP_disjoint
  by_cases hm : lf.length = 0
  · simp [hm, okB]
  · have hfold := trunkFold_no_best ⟨R, b, lf, uf, lv, uv⟩
      (listPartitions ⟨R, b, lf, uf, lv, uv⟩) ⟨.inf, .nan, none, none⟩
      (fun t ht => ⟨seedOf_ge _ t ht, fun k hk => by
        rcases H with H | H
        · exact Or.inl (H t ht k hk)
        · exact Or.inr (H t ht k hk)⟩)
    rw [if_neg hm, hfold]
    rfl

theorem C3_infeasible_error_witness :
    okB (RAP_disjoint 100 [0] [2] [1] [0] [3]) = false := by
  refine C3_infeasible_error 100 [0] [2] [1] [0] [3] (Or.inr ?_)
  intro t ht k hk
  have ht' : t = [] := by
    simpa [listPartitions, Inst.m, cwr] using ht
  subst ht'
  have hk2 : k < 2 := by
    simp only [seedOf, List.getLastD, Inst.n, List.length_cons, List.length_nil] at hk
    omega
  interval_cases k <;> with_unfolding_all decide

end RAPD
